import Mathlib

/-!
Verification of the FlashCardGenerator repository.

The frontend code (`frontend/src/components/Dashboard.jsx` /
`DeckView.jsx` / `StudyMode.jsx`, `frontend/src/utils/api.js`) is embedded
shallowly below: JavaScript strings are modelled as `List Char`, numbers as
`Nat`/`Int`, and each handler as a pure function from its inputs to the
outcome it produces (an error message, or the API call it issues).

The backend generation pipeline (chunker, prompt builder,
parser/validator, orchestrator) is not part of the available sources; those
components are modelled from the specification, and each such definition is
marked accordingly in its doc comment.
-/

/-! ### JavaScript string primitives over `List Char` -/

/-- Whitespace test used by JavaScript `String.prototype.trim` (restricted to
the common ASCII whitespace characters). -/
def isJsWhitespace (c : Char) : Bool :=
  c = ' ' || c = '\t' || c = '\n' || c = '\r' || c = '\x0b' || c = '\x0c'

/-- Model of JavaScript `String.prototype.trim`: strip leading and trailing
whitespace. -/
def jsTrim (s : List Char) : List Char :=
  ((s.dropWhile isJsWhitespace).reverse.dropWhile isJsWhitespace).reverse

/-- Lower-case a single character (ASCII range, as JavaScript
`toLowerCase` does on ASCII input). -/
def jsToLowerChar (c : Char) : Char :=
  if 'A' ≤ c ∧ c ≤ 'Z' then Char.ofNat (c.toNat + 32) else c

/-- Model of JavaScript `String.prototype.toLowerCase`. -/
def jsToLowerCase (s : List Char) : List Char :=
  s.map jsToLowerChar

/-- Model of JavaScript `String.prototype.endsWith`. -/
def jsEndsWith (s suffix : List Char) : Bool :=
  suffix.isSuffixOf s

/-! ### `frontend/src/utils/api.js` -/

/-- Body of the `POST /api/decks/:deckId/generate-from-pdfs` request built by
`decksAPI.generateFlashcardsFromPDFs`. -/
structure GenerateFromPDFsBody where
  instructions : List Char
  count : Nat
deriving DecidableEq

/-- Embedding of `decksAPI.generateFlashcardsFromPDFs(deckId, instructions,
count = 100)` from `api.js`: the request body it posts.  The optional `count`
argument defaults to `100`. -/
def generateFlashcardsFromPDFs (instructions : List Char) (count : Option Nat) :
    GenerateFromPDFsBody :=
  { instructions := instructions, count := count.getD 100 }

/-! ### `DeckView` handlers (PDF upload and generate-from-PDFs) -/

/-- Outcome of `uploadPdf` in `DeckView`: either an error message is set and no
upload request is issued, or the file is passed to `pdfsAPI.uploadPDF`. -/
inductive UploadOutcome where
  | rejected (message : List Char)
  | uploaded
deriving DecidableEq

/-- Maximum accepted PDF size in bytes (`const maxSize = 50 * 1024 * 1024`). -/
def maxSize : Nat := 50 * 1024 * 1024

/-- Embedding of `uploadPdf(file)` from `DeckView`: reject non-`.pdf` names
(case-insensitively) and files over 50 MB; otherwise call the upload API. -/
def uploadPdf (name : List Char) (size : Nat) : UploadOutcome :=
  if ¬ (jsEndsWith (jsToLowerCase name) ".pdf".data = true) then
    .rejected "Only PDF files are allowed".data
  else if size > maxSize then
    .rejected "File size exceeds 50 MB limit".data
  else
    .uploaded

/-- Outcome of `handleGenerateFromPdfs` in `DeckView`: either an error message
is set and no API call is made, or `decksAPI.generateFlashcardsFromPDFs` is
invoked with the given instructions and count. -/
inductive PdfGenOutcome where
  | rejected (message : List Char)
  | requested (instructions : List Char) (count : Nat)
deriving DecidableEq

/-- Embedding of `handleGenerateFromPdfs` from `DeckView`: require at least one
uploaded PDF and non-blank instructions, then request generation of 100
cards. -/
def handleGenerateFromPdfs (pdfsCount : Nat) (pdfInstructions : List Char) :
    PdfGenOutcome :=
  if pdfsCount = 0 then
    .rejected "Please upload at least one PDF first".data
  else if jsTrim pdfInstructions = [] then
    .rejected "Please provide instructions for flashcard generation".data
  else
    .requested pdfInstructions 100

/-- Claim C1: whenever the instructions are empty or whitespace-only
(`pdfInstructions.trim()` empty), `handleGenerateFromPdfs` sets an error and
returns without invoking `decksAPI.generateFlashcardsFromPDFs`. -/
theorem generateFromPdfs_blank_instructions_rejected
    (pdfsCount : Nat) (pdfInstructions : List Char)
    (hblank : jsTrim pdfInstructions = []) :
    (∃ msg, handleGenerateFromPdfs pdfsCount pdfInstructions =
        PdfGenOutcome.rejected msg) ∧
    ∀ ins c, handleGenerateFromPdfs pdfsCount pdfInstructions ≠
        PdfGenOutcome.requested ins c := by
  unfold handleGenerateFromPdfs
  by_cases h0 : pdfsCount = 0 <;> simp [h0, hblank]

/-- Concrete instantiation of C1: with one uploaded PDF and whitespace-only
instructions, no generation request is issued. -/
theorem generateFromPdfs_blank_instructions_rejected_witness :
    handleGenerateFromPdfs 1 "  ".data ≠ PdfGenOutcome.requested "  ".data 100 :=
  (generateFromPdfs_blank_instructions_rejected 1 "  ".data (by decide)).2
    "  ".data 100

/-- Claim C2: `uploadPdf` rejects (no upload call, an error message set) any
file over 50 MB or whose name does not end in `.pdf` case-insensitively, and
accepts every file of size at most `50 * 1024 * 1024` bytes whose lower-cased
name ends in `.pdf`. -/
theorem uploadPdf_validation (name : List Char) (size : Nat) :
    (size ≤ maxSize → jsEndsWith (jsToLowerCase name) ".pdf".data = true →
        uploadPdf name size = UploadOutcome.uploaded) ∧
    (jsEndsWith (jsToLowerCase name) ".pdf".data = false →
        ∃ msg, uploadPdf name size = UploadOutcome.rejected msg) ∧
    (size > maxSize →
        ∃ msg, uploadPdf name size = UploadOutcome.rejected msg) := by
  refine ⟨fun hsize hpdf => ?_, fun hpdf => ?_, fun hsize => ?_⟩
  · simp [uploadPdf, hpdf, Nat.not_lt.mpr hsize]
  · simp [uploadPdf, hpdf]
  · unfold uploadPdf
    by_cases hpdf : jsEndsWith (jsToLowerCase name) ".pdf".data = true <;>
      simp [hpdf, hsize]

/-- Concrete instantiation of C2: a 10-byte `a.PDF` is accepted, and a file one
byte over the 50 MB limit is rejected. -/
theorem uploadPdf_validation_witness :
    uploadPdf "a.PDF".data 10 = UploadOutcome.uploaded ∧
    ∃ msg, uploadPdf "a.PDF".data (50 * 1024 * 1024 + 1) =
        UploadOutcome.rejected msg :=
  ⟨(uploadPdf_validation "a.PDF".data 10).1 (by decide) (by decide),
   (uploadPdf_validation "a.PDF".data (50 * 1024 * 1024 + 1)).2.2 (by decide)⟩

/-- Claim C3: the target count of a PDF-based generation request defaults to
100 (`count = 100` in `generateFlashcardsFromPDFs`), and `DeckView`'s
generate-from-PDFs action always requests exactly 100 cards. -/
theorem pdf_generation_count_defaults_to_100 :
    (∀ instructions, (generateFlashcardsFromPDFs instructions none).count = 100) ∧
    ∀ pdfsCount pdfInstructions ins c,
      handleGenerateFromPdfs pdfsCount pdfInstructions =
          PdfGenOutcome.requested ins c → c = 100 := by
  refine ⟨fun _ => rfl, fun pdfsCount pdfInstructions ins c h => ?_⟩
  unfold handleGenerateFromPdfs at h
  by_cases h0 : pdfsCount = 0
  · simp [h0] at h
  · by_cases hblank : jsTrim pdfInstructions = []
    · simp [h0, hblank] at h
    · simp [h0, hblank] at h
      exact h.2.symm

/-- Concrete instantiation of C3: the request issued for one PDF with
instructions `"x"` carries count 100. -/
theorem pdf_generation_count_defaults_to_100_witness : (100 : Nat) = 100 :=
  pdf_generation_count_defaults_to_100.2 1 "x".data "x".data 100 (by decide)

/-! ### `StudyMode` -/

/-- A flashcard record as fetched from `flashcardsAPI.getFlashcards`. -/
structure Flashcard where
  id : Nat
  mastery_level : Int
  times_reviewed : Int
  question : List Char
  answer : List Char
  hint : Option (List Char)
deriving DecidableEq

/-- The fields of the PATCH body submitted by `flashcardsAPI.updateFlashcard`
from the study-mode handlers. -/
structure FlashcardUpdate where
  mastery_level : Int
  times_reviewed : Int
deriving DecidableEq

/-- Embedding of `handleKnow` from `StudyMode`: increment the mastery level,
bump the review counter, and either drop the front card from the queue (new
mastery ≥ 5) or move it to the back. Returns the submitted update and the new
queue. -/
def handleKnow (currentCard : Flashcard) (cardQueue : List Nat) :
    FlashcardUpdate × List Nat :=
  let newMasteryLevel := currentCard.mastery_level + 1
  ({ mastery_level := newMasteryLevel,
     times_reviewed := currentCard.times_reviewed + 1 },
   if newMasteryLevel ≥ 5 then cardQueue.drop 1
   else cardQueue.drop 1 ++ [currentCard.id])

/-- Embedding of `handleDontKnow` from `StudyMode`: decrement the mastery level
with floor 0 (`Math.max(0, mastery_level - 1)`), bump the review counter, and
always move the front card to the back of the queue. -/
def handleDontKnow (currentCard : Flashcard) (cardQueue : List Nat) :
    FlashcardUpdate × List Nat :=
  ({ mastery_level := max 0 (currentCard.mastery_level - 1),
     times_reviewed := currentCard.times_reviewed + 1 },
   cardQueue.drop 1 ++ [currentCard.id])

/-- Claim C8: answering "Don't Know" submits `mastery_level =
max(0, mastery_level - 1)` and `times_reviewed = times_reviewed + 1`, so for
every card with non-negative mastery the submitted mastery level is never
negative. -/
theorem dontKnow_mastery_never_negative (currentCard : Flashcard)
    (cardQueue : List Nat) (_hpos : 0 ≤ currentCard.mastery_level) :
    (handleDontKnow currentCard cardQueue).1.mastery_level =
        max 0 (currentCard.mastery_level - 1) ∧
    (handleDontKnow currentCard cardQueue).1.times_reviewed =
        currentCard.times_reviewed + 1 ∧
    0 ≤ (handleDontKnow currentCard cardQueue).1.mastery_level :=
  ⟨rfl, rfl, le_max_left 0 _⟩

/-- Concrete instantiation of C8: a card at mastery 0 is pushed back down to
mastery 0, not below. -/
theorem dontKnow_mastery_never_negative_witness :
    0 ≤ (handleDontKnow ⟨1, 0, 3, "q".data, "a".data, none⟩ [1, 2]).1.mastery_level :=
  (dontKnow_mastery_never_negative ⟨1, 0, 3, "q".data, "a".data, none⟩ [1, 2]
    (by decide)).2.2

/-- Claim C9: with the current card at the front of the queue, each answer
removes the front card; "Know" re-appends it to the back exactly when the new
mastery level stays below 5 (so the queue shortens by one exactly when the card
reaches mastery 5), "Don't Know" always re-appends it, and neither handler ever
grows the queue. -/
theorem study_queue_never_grows (currentCard : Flashcard) (rest : List Nat)
    (cardQueue : List Nat) (hfront : cardQueue = currentCard.id :: rest) :
    (handleKnow currentCard cardQueue).2 =
        (if currentCard.mastery_level + 1 ≥ 5 then rest
         else rest ++ [currentCard.id]) ∧
    (handleKnow currentCard cardQueue).2.length =
        (if currentCard.mastery_level + 1 ≥ 5 then cardQueue.length - 1
         else cardQueue.length) ∧
    (handleKnow currentCard cardQueue).2.length ≤ cardQueue.length ∧
    (handleDontKnow currentCard cardQueue).2 = rest ++ [currentCard.id] ∧
    (handleDontKnow currentCard cardQueue).2.length = cardQueue.length := by
  subst hfront
  unfold handleKnow handleDontKnow
  by_cases hmastered : currentCard.mastery_level + 1 ≥ 5 <;>
    simp [hmastered, Nat.succ_sub_one]

/-- Concrete instantiation of C9: a card at mastery 4 answered "Know" reaches
mastery 5 and leaves the queue, shortening it by one. -/
theorem study_queue_never_grows_witness :
    (handleKnow ⟨7, 4, 0, "q".data, "a".data, none⟩ [7, 9]).2.length ≤
      ([7, 9] : List Nat).length :=
  (study_queue_never_grows ⟨7, 4, 0, "q".data, "a".data, none⟩ [9] [7, 9]
    (by decide)).2.2.1

/-! ### `StudyMode` initial queue (sorting by mastery) -/

/-- Comparison used by `fetchDeckAndFlashcards`: the JavaScript comparator
`(a, b) => a.mastery_level - b.mastery_level` orders cards by ascending
mastery level. -/
def masteryLe (a b : Flashcard) : Prop :=
  a.mastery_level ≤ b.mastery_level

instance : DecidableRel masteryLe := fun a b =>
  inferInstanceAs (Decidable (a.mastery_level ≤ b.mastery_level))

instance : IsTotal Flashcard masteryLe :=
  ⟨fun a b => le_total a.mastery_level b.mastery_level⟩

instance : IsTrans Flashcard masteryLe :=
  ⟨fun _ _ _ hab hbc => le_trans hab hbc⟩

/-- Embedding of the sort in `fetchDeckAndFlashcards`:
`flashcardsResponse.data.sort((a, b) => a.mastery_level - b.mastery_level)`,
modelled as a stable sort by ascending mastery level. -/
def sortedCards (cards : List Flashcard) : List Flashcard :=
  List.insertionSort masteryLe cards

/-- Embedding of the queue initialisation effect in `StudyMode`:
`const queue = flashcards.map(card => card.id)` applied to the sorted cards. -/
def initialCardQueue (cards : List Flashcard) : List Nat :=
  (sortedCards cards).map Flashcard.id

/-- Claim C10: the initial card queue is the fetched flashcards sorted in
ascending order of mastery level (a permutation of the input, sorted by
`masteryLe`, with the queue listing its ids in order), so the first card
presented has minimal mastery level in the deck. -/
theorem initial_queue_sorted_by_mastery (cards : List Flashcard) :
    List.Sorted masteryLe (sortedCards cards) ∧
    (sortedCards cards).Perm cards ∧
    initialCardQueue cards = (sortedCards cards).map Flashcard.id ∧
    ∀ first rest, sortedCards cards = first :: rest →
      ∀ c ∈ cards, first.mastery_level ≤ c.mastery_level := by
  refine ⟨List.sorted_insertionSort masteryLe cards,
    List.perm_insertionSort masteryLe cards, rfl,
    fun first rest hsort c hc => ?_⟩
  have hmem : c ∈ sortedCards cards :=
    (List.perm_insertionSort masteryLe cards).mem_iff.mpr hc
  rw [hsort] at hmem
  rcases List.mem_cons.mp hmem with hceq | hcrest
  · exact le_of_eq (congrArg Flashcard.mastery_level hceq.symm)
  · have hsorted : List.Sorted masteryLe (first :: rest) := by
      have := List.sorted_insertionSort masteryLe cards
      rwa [show List.insertionSort masteryLe cards = sortedCards cards from rfl,
        hsort] at this
    exact List.rel_of_sorted_cons hsorted c hcrest

/-- Concrete instantiation of C10: for a two-card deck fetched with mastery
levels 3 and 1, the first card presented is the mastery-1 card. -/
theorem initial_queue_sorted_by_mastery_witness :
    (⟨2, 1, 0, "q2".data, "a2".data, none⟩ : Flashcard).mastery_level ≤
      (⟨1, 3, 0, "q1".data, "a1".data, none⟩ : Flashcard).mastery_level :=
  (initial_queue_sorted_by_mastery
      [⟨1, 3, 0, "q1".data, "a1".data, none⟩,
       ⟨2, 1, 0, "q2".data, "a2".data, none⟩]).2.2.2
    ⟨2, 1, 0, "q2".data, "a2".data, none⟩
    [⟨1, 3, 0, "q1".data, "a1".data, none⟩]
    (by decide)
    ⟨1, 3, 0, "q1".data, "a1".data, none⟩ (by decide)

/-! ### DocumentChunker (backend, modelled from the spec §4.2) -/

/-- Modelled from the spec: a `Page` of the backend pipeline (the backend
`pdf_service.py` is not among the available sources).  A page carries its
1-based index, the extracted text (possibly empty) and the vision-fallback
flag. -/
structure Page where
  docId : Nat
  index : Nat
  text : List Char
  usedVisionFallback : Bool
deriving DecidableEq

/-- Modelled from the spec: a `Document` is an identifier with an ordered
sequence of pages. -/
structure Document where
  id : Nat
  pages : List Page
deriving DecidableEq

/-- Size of a page's content, used against the chunk budget. -/
def pageSize (p : Page) : Nat := p.text.length

/-- Modelled from the spec: greedy bin-packing worker of `DocumentChunker`.
`cur` is the current chunk being accumulated (in reverse) and `curSize` its
content size.  A page is truncated to the budget (`min`) rather than dropped
when it alone exceeds the budget; the chunk is closed when adding the next
page would exceed the budget. -/
def chunkGo (budget : Nat) : List Page → List Page → Nat → List (List Page)
  | [], [], _ => []
  | [], cur, _ => [cur.reverse]
  | p :: rest, cur, curSize =>
    let s := min (pageSize p) budget
    if cur ≠ [] ∧ curSize + s > budget then
      cur.reverse :: chunkGo budget rest [p] s
    else
      chunkGo budget rest (p :: cur) (curSize + s)

/-- Modelled from the spec: `chunk(documents, budget)` iterates pages across
all documents in document-then-page order and greedily packs them into
budget-bounded chunks. -/
def chunk (documents : List Document) (budget : Nat) : List (List Page) :=
  chunkGo budget ((documents.map Document.pages).flatten) [] 0

/-- Any run of the greedy packer emits exactly the pending accumulator
followed by the remaining pages, each once and in order. -/
theorem chunkGo_flatten (budget : Nat) :
    ∀ (pages cur : List Page) (curSize : Nat),
      (chunkGo budget pages cur curSize).flatten = cur.reverse ++ pages := by
  intro pages
  induction pages with
  | nil =>
    intro cur curSize
    cases cur <;> simp [chunkGo]
  | cons p rest ih =>
    intro cur curSize
    rw [chunkGo]
    split
    · rw [List.flatten_cons, ih]
      simp
    · rw [ih]
      simp

/-- Claim C6: chunking is lossless and non-overlapping — for every input list
of documents and every positive budget, the ordered concatenation of the
returned chunks' page sequences equals the full input page sequence (documents
in order, pages in order), each page exactly once, with no gaps or repeats. -/
theorem chunking_lossless_nonoverlapping (documents : List Document)
    (budget : Nat) (_hbudget : 0 < budget) :
    (chunk documents budget).flatten = (documents.map Document.pages).flatten := by
  unfold chunk
  rw [chunkGo_flatten]
  simp

/-- Concrete instantiation of C6: two documents of two resp. one pages, chunked
with budget 3 (forcing a chunk break), flatten back to the input pages. -/
theorem chunking_lossless_nonoverlapping_witness :
    (chunk
        [⟨1, [⟨1, 1, "ab".data, false⟩, ⟨1, 2, "cde".data, false⟩]⟩,
         ⟨2, [⟨2, 1, "fg".data, true⟩]⟩] 3).flatten =
      (([⟨1, [⟨1, 1, "ab".data, false⟩, ⟨1, 2, "cde".data, false⟩]⟩,
         ⟨2, [⟨2, 1, "fg".data, true⟩]⟩] : List Document).map
        Document.pages).flatten :=
  chunking_lossless_nonoverlapping
    [⟨1, [⟨1, 1, "ab".data, false⟩, ⟨1, 2, "cde".data, false⟩]⟩,
     ⟨2, [⟨2, 1, "fg".data, true⟩]⟩] 3 (by decide)

/-! ### ResponseParser/Validator and PipelineOrchestrator (backend, modelled
from the spec §4.5–§4.6) -/

/-- Modelled from the spec: a `Candidate` record parsed from raw model output
(the backend `ai_service.py` is not among the available sources). -/
structure Candidate where
  question : List Char
  answer : List Char
  hint : Option (List Char)
deriving DecidableEq

/-- Modelled from the spec: normalization used for deduplication — lower-cased
and whitespace-collapsed (split on whitespace, drop empty fragments, rejoin
with single spaces). -/
def normalizeText (s : List Char) : List Char :=
  List.intercalate [' ']
    (((jsToLowerCase s).splitOnP isJsWhitespace).filter (fun w => w ≠ []))

/-- Modelled from the spec: the deduplication key of a candidate is its
normalized question+answer pair. -/
def normKey (c : Candidate) : List Char × List Char :=
  (normalizeText c.question, normalizeText c.answer)

/-- Modelled from the spec: shape validation — `question` and `answer` must be
non-empty strings after trimming. -/
def validCandidate (c : Candidate) : Bool :=
  !(jsTrim c.question).isEmpty && !(jsTrim c.answer).isEmpty

/-- Modelled from the spec: validation/deduplication worker.  `acc` holds the
accepted candidates in reverse; a candidate is kept when it is shape-valid and
its normalized key matches neither an existing deck flashcard nor a previously
accepted candidate of this run. -/
def dedupGo (existingKeys : List (List Char × List Char)) :
    List Candidate → List Candidate → List Candidate
  | acc, [] => acc.reverse
  | acc, c :: rest =>
    if validCandidate c = true ∧ normKey c ∉ existingKeys ∧
        normKey c ∉ acc.map normKey then
      dedupGo existingKeys (c :: acc) rest
    else
      dedupGo existingKeys acc rest

/-- Modelled from the spec: `parse`-stage validation and deduplication of the
candidates of a run against the target deck's existing flashcards. -/
def validateAndDedup (existingKeys : List (List Char × List Char))
    (candidates : List Candidate) : List Candidate :=
  dedupGo existingKeys [] candidates

/-- Modelled from the spec: the orchestrator's aggregation — concatenate the
surviving candidates of all chunks in chunk order, validate and deduplicate,
then truncate to `targetCount` when generation overshoots. -/
def aggregate (chunkOutputs : List (List Candidate))
    (existingKeys : List (List Char × List Char)) (targetCount : Nat) :
    List Candidate :=
  (validateAndDedup existingKeys chunkOutputs.flatten).take targetCount

/-- Modelled from the spec: the hard ceiling on the target count
("default 100, hard ceiling e.g. 200"). -/
def hardCeiling : Nat := 200

/-- The validation/deduplication worker preserves and establishes the result
invariant: every emitted candidate is shape-valid, the emitted normalized keys
are mutually distinct, and none of them matches an existing deck flashcard. -/
theorem dedupGo_invariant (existingKeys : List (List Char × List Char)) :
    ∀ (rest acc : List Candidate),
      (∀ c ∈ acc, validCandidate c = true) →
      (acc.map normKey).Nodup →
      (∀ c ∈ acc, normKey c ∉ existingKeys) →
      (∀ c ∈ dedupGo existingKeys acc rest, validCandidate c = true) ∧
      ((dedupGo existingKeys acc rest).map normKey).Nodup ∧
      (∀ c ∈ dedupGo existingKeys acc rest, normKey c ∉ existingKeys) := by
  intro rest
  induction rest with
  | nil =>
    intro acc hvalid hnodup hfresh
    refine ⟨?_, ?_, ?_⟩
    · intro c hc
      exact hvalid c (List.mem_reverse.mp (by simpa [dedupGo] using hc))
    · simpa [dedupGo, List.map_reverse] using hnodup
    · intro c hc
      exact hfresh c (List.mem_reverse.mp (by simpa [dedupGo] using hc))
  | cons c rest ih =>
    intro acc hvalid hnodup hfresh
    rw [dedupGo]
    split
    · rename_i hkeep
      refine ih (c :: acc) ?_ ?_ ?_
      · intro d hd
        rcases List.mem_cons.mp hd with hdc | hdacc
        · exact hdc ▸ hkeep.1
        · exact hvalid d hdacc
      · rw [List.map_cons, List.nodup_cons]
        exact ⟨hkeep.2.2, hnodup⟩
      · intro d hd
        rcases List.mem_cons.mp hd with hdc | hdacc
        · exact hdc ▸ hkeep.2.1
        · exact hfresh d hdacc
    · exact ih acc hvalid hnodup hfresh

/-- Claim C4: every flashcard emitted by a successful run has a non-empty
question and answer after trimming, and no two emitted flashcards — nor an
emitted flashcard paired with a pre-existing deck flashcard — share the same
normalized (lower-cased, whitespace-collapsed) question+answer pair. -/
theorem result_flashcards_valid_and_deduplicated
    (chunkOutputs : List (List Candidate))
    (existingKeys : List (List Char × List Char)) (targetCount : Nat) :
    (∀ c ∈ aggregate chunkOutputs existingKeys targetCount,
        jsTrim c.question ≠ [] ∧ jsTrim c.answer ≠ []) ∧
    ((aggregate chunkOutputs existingKeys targetCount).map normKey).Nodup ∧
    (∀ c ∈ aggregate chunkOutputs existingKeys targetCount,
        normKey c ∉ existingKeys) := by
  have hbase := dedupGo_invariant existingKeys chunkOutputs.flatten []
    (by intro c hc; cases hc) (by simp) (by intro c hc; cases hc)
  have htake : ∀ c ∈ aggregate chunkOutputs existingKeys targetCount,
      c ∈ dedupGo existingKeys [] chunkOutputs.flatten := by
    intro c hc
    exact List.mem_of_mem_take (by simpa [aggregate, validateAndDedup] using hc)
  refine ⟨?_, ?_, ?_⟩
  · intro c hc
    have hv := hbase.1 c (htake c hc)
    unfold validCandidate at hv
    constructor
    · intro hq
      simp [hq, List.isEmpty] at hv
    · intro ha
      simp [ha, List.isEmpty] at hv
  · have := hbase.2.1
    have hsub : (aggregate chunkOutputs existingKeys targetCount).map normKey =
        ((dedupGo existingKeys [] chunkOutputs.flatten).map normKey).take
          targetCount := by
      simp [aggregate, validateAndDedup, List.map_take]
    rw [hsub]
    exact this.sublist (List.take_sublist _ _)
  · intro c hc
    exact hbase.2.2 c (htake c hc)

/-- Concrete instantiation of C4: the surviving candidate of a one-chunk run
has non-blank question and answer after trimming. -/
theorem result_flashcards_valid_and_deduplicated_witness :
    jsTrim (Candidate.mk " What is 2+2? ".data "4".data none).question ≠ [] ∧
    jsTrim (Candidate.mk " What is 2+2? ".data "4".data none).answer ≠ [] :=
  (result_flashcards_valid_and_deduplicated
      [[⟨" What is 2+2? ".data, "4".data, none⟩]] [] 100).1
    ⟨" What is 2+2? ".data, "4".data, none⟩ (by decide)

/-- Claim C5: for all target counts `n` with `1 ≤ n ≤` the hard ceiling, a
successful run returns at most `n` flashcards — the orchestrator truncates the
aggregated candidate list to the target count when per-chunk generation
overshoots. -/
theorem run_returns_at_most_target_count (chunkOutputs : List (List Candidate))
    (existingKeys : List (List Char × List Char)) (n : Nat)
    (_hpos : 1 ≤ n) (_hceil : n ≤ hardCeiling) :
    (aggregate chunkOutputs existingKeys n).length ≤ n := by
  unfold aggregate
  rw [List.length_take]
  exact min_le_left _ _

/-- Concrete instantiation of C5: a run over three chunks of two candidates
each, asked for 4 cards, returns at most 4. -/
theorem run_returns_at_most_target_count_witness :
    (aggregate
        [[⟨"q1".data, "a1".data, none⟩, ⟨"q2".data, "a2".data, none⟩],
         [⟨"q3".data, "a3".data, none⟩, ⟨"q4".data, "a4".data, none⟩],
         [⟨"q5".data, "a5".data, none⟩, ⟨"q6".data, "a6".data, none⟩]]
        [] 4).length ≤ 4 :=
  run_returns_at_most_target_count
    [[⟨"q1".data, "a1".data, none⟩, ⟨"q2".data, "a2".data, none⟩],
     [⟨"q3".data, "a3".data, none⟩, ⟨"q4".data, "a4".data, none⟩],
     [⟨"q5".data, "a5".data, none⟩, ⟨"q6".data, "a6".data, none⟩]]
    [] 4 (by decide) (by decide)

/-! ### PromptBuilder count distribution (backend, modelled from the spec
§4.3) -/

/-- Modelled from the spec: the base per-chunk share of `targetCount` — 
proportional to the chunk's content length (floor), with a minimum of 1 card
for every non-empty chunk and 0 for an empty chunk. -/
def allocateBase (sizes : List Nat) (targetCount : Nat) : List Int :=
  let total := sizes.sum
  sizes.map (fun s =>
    if s = 0 then 0 else max 1 ((targetCount * s / total : Nat) : Int))

/-- Modelled from the spec: index of the largest chunk (first index attaining
the maximal content length), whose share absorbs the rounding remainder. -/
def largestIdx (sizes : List Nat) : Nat :=
  sizes.indexOf (sizes.foldr max 0)

/-- Add `x` to the entry of `l` at position `i`. -/
def addAt : List Int → Nat → Int → List Int
  | [], _, _ => []
  | a :: as, 0, x => (a + x) :: as
  | a :: as, i + 1, x => a :: addAt as i x

/-- Modelled from the spec: distribute `targetCount` across the chunks (given
by their content lengths) proportionally, rounding so that the largest chunk's
share absorbs the rounding remainder and the sum equals `targetCount`
exactly. -/
def allocate (sizes : List Nat) (targetCount : Nat) : List Int :=
  let base := allocateBase sizes targetCount
  addAt base (largestIdx sizes) ((targetCount : Int) - base.sum)

theorem length_addAt : ∀ (l : List Int) (i : Nat) (x : Int),
    (addAt l i x).length = l.length
  | [], _, _ => rfl
  | _ :: _, 0, _ => rfl
  | _ :: as, i + 1, x => congrArg Nat.succ (length_addAt as i x)

theorem sum_addAt : ∀ (l : List Int) (i : Nat) (x : Int), i < l.length →
    (addAt l i x).sum = l.sum + x := by
  intro l
  induction l with
  | nil => intro i x h; cases h
  | cons a as ih =>
    intro i x h
    cases i with
    | zero => simp [addAt]; ring
    | succ i =>
      rw [addAt, List.sum_cons, List.sum_cons, ih i x (Nat.lt_of_succ_lt_succ h)]
      ring

theorem getD_addAt_ne : ∀ (l : List Int) (i j : Nat) (x : Int), j ≠ i →
    (addAt l i x).getD j 0 = l.getD j 0 := by
  intro l
  induction l with
  | nil => intro i j x _; cases i <;> rfl
  | cons a as ih =>
    intro i j x hne
    cases i with
    | zero =>
      cases j with
      | zero => exact absurd rfl hne
      | succ j => rfl
    | succ i =>
      cases j with
      | zero => rfl
      | succ j => exact ih i j x (fun h => hne (congrArg Nat.succ h))

theorem getD_map_of_lt (f : Nat → Int) : ∀ (l : List Nat) (i : Nat),
    i < l.length → (l.map f).getD i 0 = f (l.getD i 0) := by
  intro l
  induction l with
  | nil => intro i h; cases h
  | cons a as ih =>
    intro i h
    cases i with
    | zero => rfl
    | succ i => exact ih i (Nat.lt_of_succ_lt_succ h)

theorem foldr_max_mem : ∀ (l : List Nat), l ≠ [] → l.foldr max 0 ∈ l := by
  intro l
  induction l with
  | nil => intro h; exact absurd rfl h
  | cons a as ih =>
    intro _
    cases has : as with
    | nil => simp
    | cons b bs =>
      rw [List.foldr_cons]
      rcases max_choice a (as.foldr max 0) with hmax | hmax
      · rw [← has, hmax]; exact List.mem_cons_self a as
      · rw [← has, hmax]
        exact List.mem_cons_of_mem a (ih (has ▸ List.cons_ne_nil b bs))

theorem largestIdx_lt (sizes : List Nat) (hne : sizes ≠ []) :
    largestIdx sizes < sizes.length :=
  List.indexOf_lt_length.mpr (foldr_max_mem sizes hne)

/-- Claim C7 counterexample: distributing `targetCount = 1` over two non-empty
chunks of size 1 and 1 allocates `[0, 1]` — the first non-empty chunk receives
no card, so the allocation does not give at least 1 card to each non-empty
chunk. -/
theorem proportional_allocation_counterexample :
    allocate [1, 1] 1 = [0, 1] ∧
    ¬ (∀ share ∈ allocate [1, 1] 1, 1 ≤ share) := by
  decide

/-- Claim C7 (amended): for every non-empty list of chunk sizes and every
target count, the per-chunk shares are the proportional floors bumped to a
minimum of 1 per non-empty chunk, the largest chunk's share absorbs the
rounding remainder so that the shares sum exactly to `targetCount`, and every
non-empty chunk other than the remainder-absorbing largest one receives at
least 1 card; in particular `targetCount = 100` over chunks of sizes
500/300/200 yields exactly `[50, 30, 20]`. -/
theorem proportional_allocation_sums_exactly (sizes : List Nat)
    (targetCount : Nat) (hne : sizes ≠ []) :
    (allocate sizes targetCount).sum = targetCount ∧
    (allocate sizes targetCount).length = sizes.length ∧
    (∀ i, i < sizes.length → i ≠ largestIdx sizes → 0 < sizes.getD i 0 →
        1 ≤ (allocate sizes targetCount).getD i 0) ∧
    allocate [500, 300, 200] 100 = [50, 30, 20] := by
  have hlenbase : (allocateBase sizes targetCount).length = sizes.length := by
    simp [allocateBase]
  have hL : largestIdx sizes < (allocateBase sizes targetCount).length := by
    rw [hlenbase]
    exact largestIdx_lt sizes hne
  refine ⟨?_, ?_, ?_, by decide⟩
  · rw [allocate, sum_addAt _ _ _ hL]
    ring
  · rw [allocate, length_addAt, hlenbase]
  · intro i hi hiL hipos
    rw [allocate, getD_addAt_ne _ _ _ _ hiL]
    have hbase : (allocateBase sizes targetCount).getD i 0 =
        if sizes.getD i 0 = 0 then 0
        else max 1 ((targetCount * sizes.getD i 0 / sizes.sum : Nat) : Int) := by
      rw [allocateBase]
      exact getD_map_of_lt _ sizes i hi
    rw [hbase, if_neg (Nat.pos_iff_ne_zero.mp hipos)]
    exact le_max_left 1 _

/-- Concrete instantiation of C7 (amended): 100 cards over chunks of sizes
500/300/200 sum exactly to 100, and the non-largest chunk at index 1 receives
at least 1 card. -/
theorem proportional_allocation_sums_exactly_witness :
    (allocate [500, 300, 200] 100).sum = 100 ∧
    1 ≤ (allocate [500, 300, 200] 100).getD 1 0 :=
  ⟨(proportional_allocation_sums_exactly [500, 300, 200] 100 (by decide)).1,
   (proportional_allocation_sums_exactly [500, 300, 200] 100 (by decide)).2.2.1
     1 (by decide) (by decide) (by decide)⟩
